import Mathlib

/-!
Verification of the ArkhamMCP server's scenario cache and search pipeline
(src/arkham_horror_mcp/server.py), as a shallow embedding in Lean.

Strings are modelled as Lean strings; the Python dicts holding scenario
records are modelled as structures with optional fields (a missing key is
`none`).  The similarity function embeds difflib's SequenceMatcher ratio:
the server constructs `SequenceMatcher(None, ...)` with no junk predicate,
and the autojunk heuristic is inert on inputs shorter than 200 characters,
so the embedding is the junk-free algorithm.  Rationals stand in for
Python floats.
-/

namespace Arkham

/-! ### Python string helpers -/

/-- ASCII lower-casing of one character; models Python str.lower. -/
def lowerChar (c : Char) : Char :=
  if 65 ≤ c.toNat ∧ c.toNat ≤ 90 then Char.ofNat (c.toNat + 32) else c

/-- ASCII upper-casing of one character; models Python str.upper. -/
def upperChar (c : Char) : Char :=
  if 97 ≤ c.toNat ∧ c.toNat ≤ 122 then Char.ofNat (c.toNat - 32) else c

/-- Models Python str.lower. -/
def strLower (s : String) : String := ⟨s.data.map lowerChar⟩

/-- Models Python str.upper. -/
def strUpper (s : String) : String := ⟨s.data.map upperChar⟩

/-- Does the list start with the given needle? -/
def startsWith : List Char → List Char → Bool
  | [], _ => true
  | _ :: _, [] => false
  | c :: cs, d :: ds => c == d && startsWith cs ds

/-- Python's substring containment test, the expression needle in hay. -/
def strIn (needle : List Char) : List Char → Bool
  | [] => startsWith needle []
  | c :: t => startsWith needle (c :: t) || strIn needle t

/-! ### difflib SequenceMatcher ratio -/

/-- Are positions p of a and q of b both in range and holding the same
character? -/
def chEq (a b : List Char) (p q : Nat) : Bool :=
  match a.get? p, b.get? q with
  | some x, some y => x == y
  | _, _ => false

/-- Length of the longest common run of equal characters ending exactly at
positions p (in a) and q (in b); 0 when the characters differ or are out of
range.  This is the quantity difflib's inner dynamic-programming loop
tracks in its j2len map. -/
def runLen (a b : List Char) : Nat → Nat → Nat
  | 0, q => if chEq a b 0 q then 1 else 0
  | p + 1, 0 => if chEq a b (p + 1) 0 then 1 else 0
  | p + 1, q + 1 => if chEq a b (p + 1) (q + 1) then runLen a b p q + 1 else 0

/-- All index pairs (i, j) with i < la and j < lb in the scan order of
difflib's find_longest_match: i ascending, then j ascending. -/
def lexPairs (la lb : Nat) : List (Nat × Nat) :=
  ((List.range la).map (fun i => (List.range lb).map (fun j => (i, j)))).flatten

/-- One update step for find_longest_match's best triple: strict
improvement only, mirroring the guard k greater than bestsize. -/
def flmStep (a b : List Char) (best : Nat × Nat × Nat) (p : Nat × Nat) :
    Nat × Nat × Nat :=
  if best.2.2 < runLen a b p.1 p.2 then
    (p.1 + 1 - runLen a b p.1 p.2, p.2 + 1 - runLen a b p.1 p.2,
      runLen a b p.1 p.2)
  else best

/-- SequenceMatcher.find_longest_match over the whole strings (no junk):
returns (i, j, size). -/
def findLongestMatch (a b : List Char) : Nat × Nat × Nat :=
  (lexPairs a.length b.length).foldl (flmStep a b) (0, 0, 0)

/-- Total number of matched characters, as summed over
SequenceMatcher.get_matching_blocks: take the longest match and recurse on
the parts to its left and to its right.  The fuel argument only serves
termination; a.length is always enough fuel. -/
def smGo : Nat → List Char → List Char → Nat
  | 0, _, _ => 0
  | fuel + 1, a, b =>
    if (findLongestMatch a b).2.2 = 0 then 0
    else
      smGo fuel (a.take (findLongestMatch a b).1)
          (b.take (findLongestMatch a b).2.1) +
        (findLongestMatch a b).2.2 +
        smGo fuel (a.drop ((findLongestMatch a b).1 + (findLongestMatch a b).2.2))
          (b.drop ((findLongestMatch a b).2.1 + (findLongestMatch a b).2.2))

/-- The matches total of SequenceMatcher on a and b. -/
def smMatches (a b : List Char) : Nat := smGo a.length a b

/-- SequenceMatcher.ratio: 2M/T, and 1.0 when both strings are empty. -/
def smRatio (a b : List Char) : ℚ :=
  if a.length + b.length = 0 then 1
  else (2 * smMatches a b : ℚ) / (a.length + b.length)

/-- The similarity function of server.py:
SequenceMatcher(None, a.lower(), b.lower()).ratio(). -/
def similarity (a b : String) : ℚ :=
  smRatio (a.data.map lowerChar) (b.data.map lowerChar)

/-- Banker's rounding of a rational to an integer; models Python round. -/
def roundHalfEven (q : ℚ) : ℤ :=
  let f : ℤ := q.num.fdiv q.den
  let r : ℚ := q - (f : ℚ)
  if r < 1 / 2 then f
  else if 1 / 2 < r then f + 1
  else if f % 2 = 0 then f else f + 1

/-- Python round(x, 2). -/
def round2 (q : ℚ) : ℚ := (roundHalfEven (q * 100) : ℚ) / 100

/-! ### Data model

A scenario record is a Python dict; each field below models one key, with
`none` for a missing key.  The similarity key is absent on fetched records
and written by the fuzzy search path. -/

structure Metadata where
  min_players? : Option Int
  max_players? : Option Int
  difficulty? : Option String
deriving DecidableEq

structure ScenarioRec where
  id? : Option String
  title? : Option String
  description? : Option String
  url? : Option String
  source? : Option String
  metadata? : Option Metadata
  similarity? : Option ℚ
deriving DecidableEq

/-- A card record from fetch_arkhamdb_cards; that function always writes
every key (with defaults), so only the similarity key is optional. -/
structure CardRec where
  id : String
  name : String
  type : String
  subtype : String
  faction : String
  pack : String
  text : String
  cost : Option Int
  source : String
  similarity? : Option ℚ
deriving DecidableEq

/-- An error-shaped dict, as produced by the card branch (all three keys)
or the unknown-kind branch (only the error key). -/
structure ErrRec where
  error : String
  type? : Option String
  name_query? : Option (Option String)
deriving DecidableEq

/-- One element of a search response, which is a heterogeneous list. -/
inductive SearchItem where
  | scenario (s : ScenarioRec)
  | card (c : CardRec)
  | err (e : ErrRec)
deriving DecidableEq

/-! ### Scenario cache -/

/-- get_cached_scenarios.  The state is the cached_scenarios list; the
Fetcher is a parameter giving the outcome of one
fetch_arkham_scenarios_internal call (error models a raised exception).
Returns (result, new cache, whether the Fetcher was invoked).  The
validation mirrors the source: the batch must be non-empty (truthiness of
fetched) and every item must have the keys id, title and url present. -/
def get_cached_scenarios (cache : List ScenarioRec)
    (fetch : Unit → Except Unit (List ScenarioRec)) :
    List ScenarioRec × List ScenarioRec × Bool :=
  if cache.isEmpty then
    match fetch () with
    | .error _ => ([], cache, true)
    | .ok fetched =>
      if !fetched.isEmpty &&
          fetched.all (fun s => s.id?.isSome && s.title?.isSome && s.url?.isSome) then
        (cache ++ fetched, cache ++ fetched, true)
      else
        ([], cache, true)
  else (cache, cache, false)

/-! ### Search pipeline -/

/-- Python truthiness of an optional string parameter. -/
def truthyS : Option String → Bool
  | none => false
  | some s => !s.isEmpty

/-- The fuzzy name filter over scenarios: keep a record when the
similarity score reaches min_similarity, writing the rounded score into
the kept record (the source mutates the record and appends it). -/
def fuzzy_name_matches (n : String) (ms : ℚ) (l : List ScenarioRec) :
    List ScenarioRec :=
  l.filterMap (fun s =>
    if ms ≤ similarity n (strLower (s.title?.getD "")) then
      some { s with
        similarity? := some (round2 (similarity n (strLower (s.title?.getD "")))) }
    else none)

/-- The in-place effect of the fuzzy name filter on one cached record:
records reaching the threshold receive the similarity key. -/
def fuzzy_touch (n : String) (ms : ℚ) (s : ScenarioRec) : ScenarioRec :=
  if ms ≤ similarity n (strLower (s.title?.getD "")) then
    { s with
      similarity? := some (round2 (similarity n (strLower (s.title?.getD "")))) }
  else s

/-- The fuzzy name filter over cards. -/
def fuzzy_card_matches (n : String) (ms : ℚ) (l : List CardRec) :
    List CardRec :=
  l.filterMap (fun c =>
    if ms ≤ similarity n c.name then
      some { c with similarity? := some (round2 (similarity n c.name)) }
    else none)

/-- The min_players filter predicate on one record. -/
def min_players_ok (m : Int) (s : ScenarioRec) : Bool :=
  match s.metadata? with
  | some md =>
    match md.min_players? with
    | some v => decide (m ≤ v)
    | none => false
  | none => false

/-- The max_players filter predicate on one record. -/
def max_players_ok (m : Int) (s : ScenarioRec) : Bool :=
  match s.metadata? with
  | some md =>
    match md.max_players? with
    | some v => decide (v ≤ m)
    | none => false
  | none => false

/-- The difficulty filter predicate on one record. -/
def difficulty_ok (d : String) (s : ScenarioRec) : Bool :=
  match s.metadata? with
  | some md =>
    match md.difficulty? with
    | some v => strLower v == strLower d
    | none => false
  | none => false

/-- The name-filter block of the scenario branch: fuzzy similarity
matching when fuzzy is set, otherwise case-insensitive substring search;
a falsy (absent or empty) name disables the filter. -/
def name_filter_scenarios (name : Option String) (fuzzy : Bool) (ms : ℚ)
    (l : List ScenarioRec) : List ScenarioRec :=
  if truthyS name then
    if fuzzy then fuzzy_name_matches (name.getD "") ms l
    else
      l.filter
        (fun s => strIn (strLower (name.getD "")).data (strLower (s.title?.getD "")).data)
  else l

/-- The effect of the name-filter block on the cache list it aliases: the
fuzzy path writes similarity scores into the cached records in place; the
other paths leave the cache untouched. -/
def cache_after_name_filter (name : Option String) (fuzzy : Bool) (ms : ℚ)
    (cache1 : List ScenarioRec) : List ScenarioRec :=
  if truthyS name && fuzzy then cache1.map (fuzzy_touch (name.getD "") ms)
  else cache1

/-- The min_players filter block. -/
def apply_min_players (mi : Option Int) (l : List ScenarioRec) : List ScenarioRec :=
  match mi with
  | some m => l.filter (fun s => min_players_ok m s)
  | none => l

/-- The max_players filter block. -/
def apply_max_players (ma : Option Int) (l : List ScenarioRec) : List ScenarioRec :=
  match ma with
  | some m => l.filter (fun s => max_players_ok m s)
  | none => l

/-- The difficulty filter block; a falsy difficulty disables it. -/
def apply_difficulty (d : Option String) (l : List ScenarioRec) : List ScenarioRec :=
  if truthyS d then l.filter (fun s => difficulty_ok (d.getD "") s) else l

/-- Stable insertion of x into a list already sorted descending by key:
x goes in front of the first element it is greater than or equal on, so
equal keys keep their original relative order. -/
def insertDesc (key : α → ℚ) (x : α) : List α → List α
  | [] => [x]
  | y :: ys => if key y ≤ key x then x :: y :: ys else y :: insertDesc key x ys

/-- Stable descending sort by key; extensionally equal to Python
list.sort(key=..., reverse=True), which is also a stable descending sort. -/
def sortDesc (key : α → ℚ) (l : List α) : List α :=
  l.foldr (insertDesc key) []

/-- The similarity-ranking block: sort descending by the attached score
when fuzzy matching with a truthy name was used. -/
def apply_scenario_sort (fuzzy : Bool) (name : Option String)
    (l : List ScenarioRec) : List ScenarioRec :=
  if fuzzy && truthyS name then sortDesc (fun s => s.similarity?.getD 0) l else l

/-- The name-filter block of the card branch. -/
def name_filter_cards (name : Option String) (fuzzy : Bool) (ms : ℚ)
    (l : List CardRec) : List CardRec :=
  if truthyS name then
    if fuzzy then fuzzy_card_matches (name.getD "") ms l
    else l.filter (fun c => strIn (strLower (name.getD "")).data (strLower c.name).data)
  else l

/-- The faction filter block (case-insensitive substring). -/
def apply_faction (fac : Option String) (l : List CardRec) : List CardRec :=
  if truthyS fac then
    l.filter (fun c => strIn (strLower (fac.getD "")).data (strLower c.faction).data)
  else l

/-- The similarity-ranking block of the card branch. -/
def apply_card_sort (fuzzy : Bool) (name : Option String)
    (l : List CardRec) : List CardRec :=
  if fuzzy && truthyS name then sortDesc (fun c => c.similarity?.getD 0) l else l

/-- The body of the /search endpoint before the final truncation step.
State and collaborators are explicit: cache is the cached_scenarios list,
scenario_fetch the scenario Fetcher, card_fetch the outcome of
fetch_arkhamdb_cards for a given type code (that function returns a plain
list and never raises).  Returns (results, new cache): the new cache
differs from the old one exactly through the in-place similarity writes of
the fuzzy scenario path, since the list returned by get_cached_scenarios
aliases the cache. -/
def search_core (ty : String) (name : Option String)
    (min_players max_players : Option Int) (difficulty : Option String)
    (fuzzy : Bool) (min_similarity : ℚ) (faction : Option String)
    (cache : List ScenarioRec)
    (scenario_fetch : Unit → Except Unit (List ScenarioRec))
    (card_fetch : Option String → List CardRec) :
    List SearchItem × List ScenarioRec :=
  if strLower ty = "scenario" then
    ((apply_scenario_sort fuzzy name
          (apply_difficulty difficulty
            (apply_max_players max_players
              (apply_min_players min_players
                (name_filter_scenarios name fuzzy min_similarity
                  (get_cached_scenarios cache scenario_fetch).1))))).map
        SearchItem.scenario,
      cache_after_name_filter name fuzzy min_similarity
        (get_cached_scenarios cache scenario_fetch).2.1)
  else if strLower ty = "card" ∨ strLower ty = "investigator" then
    if (card_fetch
          (if strLower ty = "investigator" then some "investigator" else none)).isEmpty then
      ([SearchItem.err
          ⟨"No " ++ strLower ty ++ " data available from ArkhamDB.",
            some (strLower ty), some name⟩],
        cache)
    else
      ((apply_card_sort fuzzy name
            (apply_faction faction
              (name_filter_cards name fuzzy min_similarity
                (card_fetch
                  (if strLower ty = "investigator" then some "investigator"
                    else none))))).map
          SearchItem.card,
        cache)
  else
    ([SearchItem.err
        ⟨"Unknown search type: '" ++ ty ++
            "'. Supported types: 'scenario', 'card', 'investigator'.",
          none, none⟩],
      cache)

/-- The final truncation step: at most 50 results, silently. -/
def truncate50 (l : List SearchItem) : List SearchItem :=
  if 50 < l.length then l.take 50 else l

/-- The /search endpoint: the pipeline followed by the final truncation to
at most 50 items.  The card branch's unavailable-data early return skips
the truncation in the source; its list has length one, on which the
truncation below is the identity, so routing it uniformly is equivalent. -/
def search_arkham (ty : String) (name : Option String)
    (min_players max_players : Option Int) (difficulty : Option String)
    (fuzzy : Bool) (min_similarity : ℚ) (faction : Option String)
    (cache : List ScenarioRec)
    (scenario_fetch : Unit → Except Unit (List ScenarioRec))
    (card_fetch : Option String → List CardRec) :
    List SearchItem × List ScenarioRec :=
  (truncate50
      (search_core ty name min_players max_players difficulty fuzzy
          min_similarity faction cache scenario_fetch card_fetch).1,
    (search_core ty name min_players max_players difficulty fuzzy
        min_similarity faction cache scenario_fetch card_fetch).2)

/-! ### Concrete records used when instantiating the theorems -/

/-- A well-formed scenario record as fetch_arkham_scenarios_internal
produces it. -/
def sampleRec : ScenarioRec :=
  { id? := some "the-king-in-yellow"
    title? := some "The King in Yellow 1-4 Players"
    description? := some "Fan-created Arkham Horror scenario: The King in Yellow 1-4 Players"
    url? := some "https://arkhamcentral.com/index.php/the-king-in-yellow/"
    source? := some "arkhamcentral"
    metadata? := some { min_players? := some 2, max_players? := some 4, difficulty? := none }
    similarity? := none }

/-- A second record whose title differs from sampleRec's. -/
def otherRec : ScenarioRec :=
  { id? := some "carcosa"
    title? := some "Return to Carcosa"
    description? := some "Fan-created Arkham Horror scenario: Return to Carcosa"
    url? := some "https://arkhamcentral.com/index.php/carcosa/"
    source? := some "arkhamcentral"
    metadata? := some { min_players? := none, max_players? := none, difficulty? := none }
    similarity? := none }

/-- A record whose id key is present but holds the empty string. -/
def emptyIdRec : ScenarioRec :=
  { id? := some ""
    title? := some "Some Scenario"
    description? := some "d"
    url? := some "https://arkhamcentral.com/index.php/some-scenario/"
    source? := some "arkhamcentral"
    metadata? := some { min_players? := none, max_players? := none, difficulty? := none }
    similarity? := none }

/-! ### Cache lemmas -/

/-- On a non-empty cache, get_cached_scenarios serves the cache untouched
and does not invoke the Fetcher. -/
theorem get_cached_of_ne_nil (c : List ScenarioRec)
    (f : Unit → Except Unit (List ScenarioRec)) (h : c ≠ []) :
    get_cached_scenarios c f = (c, c, false) := by
  have h' : c.isEmpty = false := by
    cases c with
    | nil => exact absurd rfl h
    | cons x t => rfl
  simp [get_cached_scenarios, h']

/-- get_cached_scenarios always returns the very list that is left in the
cache (the source returns the cached_scenarios object, or a fresh empty
list while the cache is also empty). -/
theorem get_cached_fst_eq (c : List ScenarioRec)
    (f : Unit → Except Unit (List ScenarioRec)) :
    (get_cached_scenarios c f).1 = (get_cached_scenarios c f).2.1 := by
  by_cases hc : c = []
  · subst hc
    rcases hfe : f () with e | fetched
    · simp [get_cached_scenarios, hfe]
    · simp only [get_cached_scenarios, hfe, List.isEmpty_nil, if_true]
      split <;> rfl
  · rw [get_cached_of_ne_nil c f hc]

/-- C1: once get_scenarios has returned a non-empty sequence, a subsequent
call returns the exact same sequence, leaves the cache unchanged, and does
not invoke the Fetcher. -/
theorem cache_stability (c : List ScenarioRec)
    (f₁ f₂ : Unit → Except Unit (List ScenarioRec))
    (h : (get_cached_scenarios c f₁).1 ≠ []) :
    get_cached_scenarios (get_cached_scenarios c f₁).2.1 f₂ =
      ((get_cached_scenarios c f₁).1, (get_cached_scenarios c f₁).2.1, false) := by
  have halias := get_cached_fst_eq c f₁
  have hne : (get_cached_scenarios c f₁).2.1 ≠ [] := halias ▸ h
  rw [halias, get_cached_of_ne_nil _ f₂ hne]

/-- C1 witness. -/
theorem cache_stability_witness :
    get_cached_scenarios
        (get_cached_scenarios [Arkham.sampleRec] (fun _ => .error ())).2.1
        (fun _ => .error ()) =
      ((get_cached_scenarios [Arkham.sampleRec] (fun _ => .error ())).1,
        (get_cached_scenarios [Arkham.sampleRec] (fun _ => .error ())).2.1,
        false) :=
  cache_stability [Arkham.sampleRec] (fun _ => .error ()) (fun _ => .error ())
    (by decide)

/-- C2 counterexample: a fetched batch containing a record whose id is the
empty string (the key is present but its value is empty) is accepted,
cached and returned by the code, contradicting the claim that an item
failing the non-empty requirement voids the whole batch. -/
theorem batch_validation_counterexample :
    Arkham.emptyIdRec.id? = some "" ∧
      get_cached_scenarios [] (fun _ => .ok [Arkham.emptyIdRec]) =
        ([Arkham.emptyIdRec], [Arkham.emptyIdRec], true) := by
  constructor
  · rfl
  · decide

/-- C2 (amended): when the cache is empty the fetched batch is validated
by requiring it to be non-empty and every item to carry the keys id, title
and url (present, though possibly holding empty strings); if any item
lacks one of these keys the entire batch is discarded, the cache stays
empty, and an empty sequence is returned; otherwise the batch is cached
and returned. -/
theorem batch_validation (f : Unit → Except Unit (List ScenarioRec))
    (fetched : List ScenarioRec) (hf : f () = .ok fetched) :
    (fetched ≠ [] →
      (∀ s ∈ fetched, s.id?.isSome ∧ s.title?.isSome ∧ s.url?.isSome) →
      get_cached_scenarios [] f = (fetched, fetched, true))
    ∧ ((∃ s ∈ fetched, ¬(s.id?.isSome ∧ s.title?.isSome ∧ s.url?.isSome)) →
      get_cached_scenarios [] f = ([], [], true)) := by
  constructor
  · intro hne hall
    have hfe : fetched.isEmpty = false := by
      cases fetched with
      | nil => exact absurd rfl hne
      | cons x t => rfl
    have hcond : (fetched.all fun s =>
        s.id?.isSome && s.title?.isSome && s.url?.isSome) = true := by
      simp only [List.all_eq_true, Bool.and_eq_true]
      intro s hs
      rcases hall s hs with ⟨h1, h2, h3⟩
      exact ⟨⟨h1, h2⟩, h3⟩
    simp [get_cached_scenarios, hf, hfe, hcond]
  · rintro ⟨s, hs, hbad⟩
    have hcond : (fetched.all fun s =>
        s.id?.isSome && s.title?.isSome && s.url?.isSome) = false := by
      simp only [List.all_eq_false]
      refine ⟨s, hs, ?_⟩
      simp only [Bool.and_eq_true, not_and] at hbad ⊢
      intro h12
      rcases h12 with ⟨h1, h2⟩
      by_cases h3 : s.url?.isSome = true
      · exact absurd h3 (hbad h1 h2)
      · simpa using h3
    simp [get_cached_scenarios, hf, hcond]

/-- C2 witness. -/
theorem batch_validation_witness :
    get_cached_scenarios [] (fun _ => .ok [Arkham.sampleRec]) =
      ([Arkham.sampleRec], [Arkham.sampleRec], true) :=
  (batch_validation (fun _ => .ok [Arkham.sampleRec]) [Arkham.sampleRec] rfl).1
    (by decide) (by decide)

/-- C3: when the Fetcher raises, get_scenarios returns an empty sequence
(it never propagates the failure), the cache remains empty, and any
subsequent call on the still-empty cache invokes the Fetcher again. -/
theorem fetch_failure_recovery
    (f₂ : Unit → Except Unit (List ScenarioRec)) :
    get_cached_scenarios [] (fun _ => .error ()) = ([], [], true)
    ∧ (get_cached_scenarios [] f₂).2.2 = true := by
  refine ⟨rfl, ?_⟩
  rcases hfe : f₂ () with e | fetched
  · simp [get_cached_scenarios, hfe]
  · simp only [get_cached_scenarios, hfe, List.isEmpty_nil, if_true]
    split <;> rfl

/-! ### Truncation -/

/-- C6: every search response has at most 50 items, and when the pipeline
produces more than 50, exactly the first 50 are returned in order, with no
error. -/
theorem truncation_cap (ty : String) (name : Option String)
    (mi ma : Option Int) (diff : Option String) (fz : Bool) (ms : ℚ)
    (fac : Option String) (cache : List ScenarioRec)
    (sf : Unit → Except Unit (List ScenarioRec))
    (cf : Option String → List CardRec) :
    (search_arkham ty name mi ma diff fz ms fac cache sf cf).1.length ≤ 50
    ∧ (50 < (search_core ty name mi ma diff fz ms fac cache sf cf).1.length →
        (search_arkham ty name mi ma diff fz ms fac cache sf cf).1 =
          (search_core ty name mi ma diff fz ms fac cache sf cf).1.take 50) := by
  constructor
  · simp only [search_arkham, truncate50]
    split
    · simp
    · next h => omega
  · intro h
    simp only [search_arkham, truncate50]
    rw [if_pos h]

/-- C6 witness: a cache of 55 records makes the plain scenario search
produce 55 matches, and the endpoint returns exactly the first 50. -/
theorem truncation_cap_witness :
    50 < (search_core "scenario" none none none none false (6 / 10) none
        (List.replicate 55 Arkham.sampleRec) (fun _ => .error ())
        (fun _ => [])).1.length
    ∧ (search_arkham "scenario" none none none none false (6 / 10) none
        (List.replicate 55 Arkham.sampleRec) (fun _ => .error ())
        (fun _ => [])).1 =
      (search_core "scenario" none none none none false (6 / 10) none
        (List.replicate 55 Arkham.sampleRec) (fun _ => .error ())
        (fun _ => [])).1.take 50 :=
  ⟨by decide,
    (truncation_cap "scenario" none none none none false (6 / 10) none
        (List.replicate 55 Arkham.sampleRec) (fun _ => .error ())
        (fun _ => [])).2 (by decide)⟩

/-! ### Substring containment lemmas -/

theorem startsWith_append_self (n s : List Char) :
    startsWith n (n ++ s) = true := by
  induction n with
  | nil => rfl
  | cons c t ih => simp [startsWith, ih]

theorem strIn_of_startsWith (n h : List Char) (hs : startsWith n h = true) :
    strIn n h = true := by
  cases h with
  | nil => simpa [strIn] using hs
  | cons c t => simp [strIn, hs]

theorem strIn_append_right (n p r : List Char) (hr : strIn n r = true) :
    strIn n (p ++ r) = true := by
  induction p with
  | nil => simpa using hr
  | cons c t ih => simp [strIn, ih]

theorem strIn_sandwich (n p s : List Char) : strIn n (p ++ (n ++ s)) = true :=
  strIn_append_right n p (n ++ s)
    (strIn_of_startsWith n (n ++ s) (startsWith_append_self n s))

/-! ### Unknown search kind -/

/-- The pipeline on an unknown kind: one error record naming the kind. -/
theorem search_core_unknown (ty : String) (name : Option String)
    (mi ma : Option Int) (diff : Option String) (fz : Bool) (ms : ℚ)
    (fac : Option String) (cache : List ScenarioRec)
    (sf : Unit → Except Unit (List ScenarioRec))
    (cf : Option String → List CardRec)
    (h1 : strLower ty ≠ "scenario") (h2 : strLower ty ≠ "card")
    (h3 : strLower ty ≠ "investigator") :
    search_core ty name mi ma diff fz ms fac cache sf cf =
      ([SearchItem.err
          ⟨"Unknown search type: '" ++ ty ++
              "'. Supported types: 'scenario', 'card', 'investigator'.",
            none, none⟩],
        cache) := by
  unfold search_core
  rw [if_neg h1, if_neg]
  rintro (h | h)
  · exact h2 h
  · exact h3 h

/-- C9: a search whose kind is none of scenario, card, investigator
returns a one-element sequence with a single error record whose message
contains the unknown kind, and no exception is raised. -/
theorem unknown_kind (ty : String) (name : Option String)
    (mi ma : Option Int) (diff : Option String) (fz : Bool) (ms : ℚ)
    (fac : Option String) (cache : List ScenarioRec)
    (sf : Unit → Except Unit (List ScenarioRec))
    (cf : Option String → List CardRec)
    (h1 : strLower ty ≠ "scenario") (h2 : strLower ty ≠ "card")
    (h3 : strLower ty ≠ "investigator") :
    (search_arkham ty name mi ma diff fz ms fac cache sf cf).1 =
      [SearchItem.err
        ⟨"Unknown search type: '" ++ ty ++
            "'. Supported types: 'scenario', 'card', 'investigator'.",
          none, none⟩]
    ∧ strIn ty.data
        ("Unknown search type: '" ++ ty ++
            "'. Supported types: 'scenario', 'card', 'investigator'.").data =
      true := by
  constructor
  · simp only [search_arkham,
      search_core_unknown ty name mi ma diff fz ms fac cache sf cf h1 h2 h3]
    rfl
  · have h := strIn_sandwich ty.data "Unknown search type: '".data
      "'. Supported types: 'scenario', 'card', 'investigator'.".data
    simpa [List.append_assoc] using h

/-! ### Stage lemmas on the empty list -/

theorem name_filter_scenarios_nil (name : Option String) (fz : Bool) (ms : ℚ) :
    name_filter_scenarios name fz ms [] = [] := by
  unfold name_filter_scenarios
  split
  · split <;> rfl
  · rfl

theorem apply_min_players_nil (mi : Option Int) : apply_min_players mi [] = [] := by
  cases mi <;> rfl

theorem apply_max_players_nil (ma : Option Int) : apply_max_players ma [] = [] := by
  cases ma <;> rfl

theorem apply_difficulty_nil (d : Option String) : apply_difficulty d [] = [] := by
  unfold apply_difficulty
  split <;> rfl

theorem apply_scenario_sort_nil (fz : Bool) (name : Option String) :
    apply_scenario_sort fz name [] = [] := by
  unfold apply_scenario_sort
  split <;> rfl

theorem cache_after_name_filter_nil (name : Option String) (fz : Bool) (ms : ℚ) :
    cache_after_name_filter name fz ms [] = [] := by
  unfold cache_after_name_filter
  split <;> rfl

/-- A failing Fetcher on an empty cache yields an empty result, an empty
cache, and an invoked Fetcher. -/
theorem get_cached_nil_error (f : Unit → Except Unit (List ScenarioRec))
    (hf : f () = .error ()) :
    get_cached_scenarios [] f = ([], [], true) := by
  simp [get_cached_scenarios, hf]

/-! ### Card-branch unavailability -/

/-- The pipeline when the card Fetcher yields no cards: one error record. -/
theorem search_core_cards_empty (ty : String) (name : Option String)
    (mi ma : Option Int) (diff : Option String) (fz : Bool) (ms : ℚ)
    (fac : Option String) (cache : List ScenarioRec)
    (sf : Unit → Except Unit (List ScenarioRec))
    (cf : Option String → List CardRec)
    (h : strLower ty = "card" ∨ strLower ty = "investigator")
    (hcf : cf (if strLower ty = "investigator" then some "investigator" else none) = []) :
    search_core ty name mi ma diff fz ms fac cache sf cf =
      ([SearchItem.err
          ⟨"No " ++ strLower ty ++ " data available from ArkhamDB.",
            some (strLower ty), some name⟩],
        cache) := by
  have hns : strLower ty ≠ "scenario" := by
    rcases h with hc | hc <;> rw [hc] <;> decide
  unfold search_core
  rw [if_neg hns, if_pos h, if_pos (by rw [hcf]; rfl)]

/-- The scenario pipeline on an empty cache with a failing Fetcher: an
empty result list and a still-empty cache. -/
theorem search_core_scenario_fetch_error (name : Option String)
    (mi ma : Option Int) (diff : Option String) (fz : Bool) (ms : ℚ)
    (fac : Option String) (sf : Unit → Except Unit (List ScenarioRec))
    (cf : Option String → List CardRec) (hsf : sf () = .error ()) :
    search_core "scenario" name mi ma diff fz ms fac [] sf cf = ([], []) := by
  unfold search_core
  rw [if_pos (by decide), get_cached_nil_error sf hsf]
  simp [name_filter_scenarios_nil, apply_min_players_nil, apply_max_players_nil,
    apply_difficulty_nil, apply_scenario_sort_nil, cache_after_name_filter_nil]

/-- C8: when the Fetcher returns zero cards, a card or investigator search
returns a one-element sequence holding an error record describing the
unavailability, whereas the scenario branch returns a plain empty list in
the analogous situation (empty cache, failing Fetcher). -/
theorem empty_cards_asymmetry (ty : String) (name : Option String)
    (mi ma : Option Int) (diff : Option String) (fz : Bool) (ms : ℚ)
    (fac : Option String) (cache : List ScenarioRec)
    (sf : Unit → Except Unit (List ScenarioRec))
    (cf : Option String → List CardRec)
    (h : strLower ty = "card" ∨ strLower ty = "investigator")
    (hcf : cf (if strLower ty = "investigator" then some "investigator" else none) = []) :
    (search_arkham ty name mi ma diff fz ms fac cache sf cf).1 =
      [SearchItem.err
        ⟨"No " ++ strLower ty ++ " data available from ArkhamDB.",
          some (strLower ty), some name⟩]
    ∧ ∀ sf' : Unit → Except Unit (List ScenarioRec), sf' () = .error () →
        (search_arkham "scenario" name mi ma diff fz ms fac [] sf' cf).1 = [] := by
  constructor
  · unfold search_arkham
    rw [search_core_cards_empty ty name mi ma diff fz ms fac cache sf cf h hcf]
    rfl
  · intro sf' hsf
    unfold search_arkham
    rw [search_core_scenario_fetch_error name mi ma diff fz ms fac sf' cf hsf]
    rfl

/-- C8 witness. -/
theorem empty_cards_asymmetry_witness :
    (search_arkham "card" none none none none false (6 / 10) none []
        (fun _ => .error ()) (fun _ => [])).1 =
      [SearchItem.err
        ⟨"No " ++ strLower "card" ++ " data available from ArkhamDB.",
          some (strLower "card"), some none⟩]
    ∧ (search_arkham "scenario" none none none none false (6 / 10) none []
        (fun _ => .error ()) (fun _ => [])).1 = [] := by
  have h := empty_cards_asymmetry "card" none none none none false (6 / 10)
    none [] (fun _ => .error ()) (fun _ => [])
    (Or.inl (by decide)) (by decide)
  exact ⟨h.1, h.2 (fun _ => .error ()) rfl⟩

/-! ### Frame effect of the fuzzy scenario search on the cache -/

/-- C10: a fuzzy scenario search with a truthy name writes, for every
cached record reaching the similarity threshold, the rounded score under
the similarity key of the record held by the cache (records below the
threshold are left unchanged), and every later get_scenarios call serves
exactly these updated records without refetching. -/
theorem fuzzy_search_mutates_cache (ty : String) (name : Option String)
    (mi ma : Option Int) (diff : Option String) (ms : ℚ)
    (fac : Option String) (c : List ScenarioRec)
    (sf : Unit → Except Unit (List ScenarioRec))
    (cf : Option String → List CardRec)
    (hty : strLower ty = "scenario") (hname : truthyS name = true)
    (hc : c ≠ []) :
    (search_arkham ty name mi ma diff true ms fac c sf cf).2 =
      c.map (fun s =>
        if ms ≤ similarity (name.getD "") (strLower (s.title?.getD "")) then
          { s with
              similarity? := some (round2 (similarity (name.getD "") (strLower (s.title?.getD "")))) }
        else s)
    ∧ ∀ f' : Unit → Except Unit (List ScenarioRec),
        get_cached_scenarios
            (search_arkham ty name mi ma diff true ms fac c sf cf).2 f' =
          ((search_arkham ty name mi ma diff true ms fac c sf cf).2,
            (search_arkham ty name mi ma diff true ms fac c sf cf).2, false) := by
  have hcore : (search_core ty name mi ma diff true ms fac c sf cf).2 =
      c.map (fuzzy_touch (name.getD "") ms) := by
    unfold search_core
    rw [if_pos hty, get_cached_of_ne_nil c sf hc]
    simp [cache_after_name_filter, hname]
  have harkham : (search_arkham ty name mi ma diff true ms fac c sf cf).2 =
      c.map (fuzzy_touch (name.getD "") ms) := by
    unfold search_arkham
    simpa using hcore
  constructor
  · rw [harkham]
    rfl
  · intro f'
    rw [harkham]
    refine get_cached_of_ne_nil _ f' ?_
    intro hnil
    exact hc (by simpa using hnil)

/-- C10 witness. -/
theorem fuzzy_search_mutates_cache_witness :
    (search_arkham "scenario" (some "carcosa") none none none true 0 none
        [Arkham.otherRec] (fun _ => .error ()) (fun _ => [])).2 =
      [Arkham.otherRec].map (fun s =>
        if (0 : ℚ) ≤ similarity ((some "carcosa").getD "") (strLower (s.title?.getD "")) then
          { s with
              similarity? := some (round2 (similarity ((some "carcosa").getD "") (strLower (s.title?.getD "")))) }
        else s)
    ∧ ∀ f' : Unit → Except Unit (List ScenarioRec),
        get_cached_scenarios
            (search_arkham "scenario" (some "carcosa") none none none true 0 none
              [Arkham.otherRec] (fun _ => .error ()) (fun _ => [])).2 f' =
          ((search_arkham "scenario" (some "carcosa") none none none true 0 none
              [Arkham.otherRec] (fun _ => .error ()) (fun _ => [])).2,
            (search_arkham "scenario" (some "carcosa") none none none true 0 none
              [Arkham.otherRec] (fun _ => .error ()) (fun _ => [])).2, false) :=
  fuzzy_search_mutates_cache "scenario" (some "carcosa") none none none 0 none
    [Arkham.otherRec] (fun _ => .error ()) (fun _ => [])
    (by decide) (by decide) (by decide)

/-! ### Sort membership lemmas -/

theorem mem_insertDesc {α : Type} (key : α → ℚ) (x a : α) (l : List α) :
    a ∈ insertDesc key x l ↔ a = x ∨ a ∈ l := by
  induction l with
  | nil => simp [insertDesc]
  | cons y ys ih =>
    unfold insertDesc
    split
    · simp [or_comm, or_assoc, or_left_comm]
    · simp only [List.mem_cons, ih]
      tauto

theorem mem_sortDesc {α : Type} (key : α → ℚ) (l : List α) (a : α) :
    a ∈ sortDesc key l ↔ a ∈ l := by
  induction l with
  | nil => simp [sortDesc]
  | cons x t ih =>
    show a ∈ insertDesc key x (sortDesc key t) ↔ _
    rw [mem_insertDesc]
    simp only [List.mem_cons, ih]

/-! ### Stage membership lemmas -/

theorem mem_of_apply_scenario_sort {fz : Bool} {name : Option String}
    {l : List ScenarioRec} {s : ScenarioRec}
    (h : s ∈ apply_scenario_sort fz name l) : s ∈ l := by
  unfold apply_scenario_sort at h
  split at h
  · exact (mem_sortDesc _ _ _).1 h
  · exact h

theorem mem_of_apply_difficulty {d : Option String} {l : List ScenarioRec}
    {s : ScenarioRec} (h : s ∈ apply_difficulty d l) : s ∈ l := by
  unfold apply_difficulty at h
  split at h
  · exact (List.mem_filter.1 h).1
  · exact h

theorem mem_of_apply_max_players {ma : Option Int} {l : List ScenarioRec}
    {s : ScenarioRec} (h : s ∈ apply_max_players ma l) : s ∈ l := by
  cases ma with
  | none => exact h
  | some m => exact (List.mem_filter.1 h).1

theorem mem_of_apply_min_players {mi : Option Int} {l : List ScenarioRec}
    {s : ScenarioRec} (h : s ∈ apply_min_players mi l) : s ∈ l := by
  cases mi with
  | none => exact h
  | some m => exact (List.mem_filter.1 h).1

theorem apply_min_players_pred {m : Int} {l : List ScenarioRec}
    {s : ScenarioRec} (h : s ∈ apply_min_players (some m) l) :
    min_players_ok m s = true :=
  (List.mem_filter.1 h).2

theorem apply_max_players_pred {m : Int} {l : List ScenarioRec}
    {s : ScenarioRec} (h : s ∈ apply_max_players (some m) l) :
    max_players_ok m s = true :=
  (List.mem_filter.1 h).2

theorem min_players_ok_spec (m : Int) (s : ScenarioRec)
    (h : min_players_ok m s = true) :
    ∃ md v, s.metadata? = some md ∧ md.min_players? = some v ∧ m ≤ v := by
  unfold min_players_ok at h
  rcases hmd : s.metadata? with _ | md
  · rw [hmd] at h
    cases h
  · rw [hmd] at h
    dsimp only at h
    rcases hv : md.min_players? with _ | v
    · rw [hv] at h
      cases h
    · rw [hv] at h
      exact ⟨md, v, rfl, hv, by simpa using h⟩

theorem max_players_ok_spec (m : Int) (s : ScenarioRec)
    (h : max_players_ok m s = true) :
    ∃ md v, s.metadata? = some md ∧ md.max_players? = some v ∧ v ≤ m := by
  unfold max_players_ok at h
  rcases hmd : s.metadata? with _ | md
  · rw [hmd] at h
    cases h
  · rw [hmd] at h
    dsimp only at h
    rcases hv : md.max_players? with _ | v
    · rw [hv] at h
      cases h
    · rw [hv] at h
      exact ⟨md, v, rfl, hv, by simpa using h⟩

/-! ### Player-count filters -/

/-- C5: every record in a scenario search response with min_players or
max_players given carries the corresponding metadata key satisfying the
numeric bound; a record missing the metadata dict or the requested key is
excluded rather than passed through. -/
theorem player_count_filters (ty : String) (name : Option String)
    (mi ma : Option Int) (diff : Option String) (fz : Bool) (ms : ℚ)
    (fac : Option String) (cache : List ScenarioRec)
    (sf : Unit → Except Unit (List ScenarioRec))
    (cf : Option String → List CardRec) (r : SearchItem)
    (hty : strLower ty = "scenario")
    (hr : r ∈ (search_arkham ty name mi ma diff fz ms fac cache sf cf).1) :
    ∃ s, r = SearchItem.scenario s
      ∧ (∀ m, mi = some m →
          ∃ md v, s.metadata? = some md ∧ md.min_players? = some v ∧ m ≤ v)
      ∧ (∀ m, ma = some m →
          ∃ md v, s.metadata? = some md ∧ md.max_players? = some v ∧ v ≤ m) := by
  have hr1 : r ∈ (search_core ty name mi ma diff fz ms fac cache sf cf).1 := by
    unfold search_arkham truncate50 at hr
    split at hr
    · exact List.take_subset _ _ hr
    · exact hr
  unfold search_core at hr1
  rw [if_pos hty] at hr1
  rcases List.mem_map.1 hr1 with ⟨s, hs, rfl⟩
  have hs4 := mem_of_apply_difficulty (mem_of_apply_scenario_sort hs)
  refine ⟨s, rfl, ?_, ?_⟩
  · intro m hm
    subst hm
    exact min_players_ok_spec m s
      (apply_min_players_pred (mem_of_apply_max_players hs4))
  · intro m hm
    subst hm
    exact max_players_ok_spec m s (apply_max_players_pred hs4)

/-- C5 witness: with min_players 2 and max_players 4, the sample record
with metadata 2 to 4 players is returned and satisfies both bounds. -/
theorem player_count_filters_witness :
    SearchItem.scenario Arkham.sampleRec ∈
      (search_arkham "scenario" none (some 2) (some 4) none false (6 / 10) none
        [Arkham.sampleRec, Arkham.otherRec] (fun _ => .error ()) (fun _ => [])).1
    ∧ ∃ s, SearchItem.scenario Arkham.sampleRec = SearchItem.scenario s
      ∧ (∀ m, (some (2 : Int)) = some m →
          ∃ md v, s.metadata? = some md ∧ md.min_players? = some v ∧ m ≤ v)
      ∧ (∀ m, (some (4 : Int)) = some m →
          ∃ md v, s.metadata? = some md ∧ md.max_players? = some v ∧ v ≤ m) :=
  ⟨by decide,
    player_count_filters "scenario" none (some 2) (some 4) none false (6 / 10)
      none [Arkham.sampleRec, Arkham.otherRec] (fun _ => .error ())
      (fun _ => []) (SearchItem.scenario Arkham.sampleRec) (by decide)
      (by decide)⟩

/-! ### Longest-run lemmas -/

theorem chEq_iff (a b : List Char) (p q : Nat) :
    chEq a b p q = true ↔ ∃ x, a.get? p = some x ∧ b.get? q = some x := by
  unfold chEq
  rcases ha : a.get? p with _ | x <;> rcases hb : b.get? q with _ | y
  · simp
  · simp
  · simp
  · show (x == y) = true ↔ _
    simp only [beq_iff_eq, Option.some.injEq]
    constructor
    · rintro rfl
      exact ⟨x, rfl, rfl⟩
    · rintro ⟨z, rfl, h⟩
      exact h.symm

theorem chEq_lt (a b : List Char) (p q : Nat) (h : chEq a b p q = true) :
    p < a.length ∧ q < b.length := by
  obtain ⟨x, hx1, hx2⟩ := (chEq_iff a b p q).1 h
  constructor
  · by_contra hp
    rw [List.get?_eq_none.2 (by omega)] at hx1
    cases hx1
  · by_contra hq
    rw [List.get?_eq_none.2 (by omega)] at hx2
    cases hx2

theorem runLen_le_left (a b : List Char) : ∀ p q, runLen a b p q ≤ p + 1 := by
  intro p
  induction p with
  | zero =>
    intro q
    unfold runLen
    split <;> simp
  | succ p ih =>
    intro q
    cases q with
    | zero =>
      unfold runLen
      split <;> simp
    | succ q =>
      unfold runLen
      split
      · have := ih q
        omega
      · simp

theorem runLen_le_right (a b : List Char) : ∀ p q, runLen a b p q ≤ q + 1 := by
  intro p
  induction p with
  | zero =>
    intro q
    unfold runLen
    split <;> simp
  | succ p ih =>
    intro q
    cases q with
    | zero =>
      unfold runLen
      split <;> simp
    | succ q =>
      unfold runLen
      split
      · have := ih q
        omega
      · simp

theorem runLen_pos_lt (a b : List Char) (p q : Nat)
    (h : runLen a b p q ≠ 0) : p < a.length ∧ q < b.length := by
  match p, q with
  | 0, q =>
    unfold runLen at h
    split at h
    · next hc => exact chEq_lt a b 0 q hc
    · exact absurd rfl h
  | p + 1, 0 =>
    unfold runLen at h
    split at h
    · next hc => exact chEq_lt a b (p + 1) 0 hc
    · exact absurd rfl h
  | p + 1, q + 1 =>
    unfold runLen at h
    split at h
    · next hc => exact chEq_lt a b (p + 1) (q + 1) hc
    · exact absurd rfl h

theorem runLen_block (a b : List Char) : ∀ p q d, d < runLen a b p q →
    ∃ x, a.get? (p - d) = some x ∧ b.get? (q - d) = some x := by
  intro p
  induction p with
  | zero =>
    intro q d hd
    unfold runLen at hd
    split at hd
    · next hc =>
      have hd0 : d = 0 := by omega
      subst hd0
      simpa using (chEq_iff a b 0 q).1 hc
    · omega
  | succ p ih =>
    intro q d hd
    cases q with
    | zero =>
      unfold runLen at hd
      split at hd
      · next hc =>
        have hd0 : d = 0 := by omega
        subst hd0
        simpa using (chEq_iff a b (p + 1) 0).1 hc
      · omega
    | succ q =>
      unfold runLen at hd
      split at hd
      · next hc =>
        cases d with
        | zero => simpa using (chEq_iff a b (p + 1) (q + 1)).1 hc
        | succ d =>
          have hd' : d < runLen a b p q := by omega
          simpa [Nat.succ_sub_succ] using ih q d hd'
      · omega

theorem chEq_diag (a : List Char) (p : Nat) (hp : p < a.length) :
    chEq a a p p = true := by
  unfold chEq
  rw [List.get?_eq_get hp]
  simp

theorem runLen_diag (a : List Char) : ∀ p, p < a.length → runLen a a p p = p + 1 := by
  intro p
  induction p with
  | zero =>
    intro hp
    unfold runLen
    rw [if_pos (chEq_diag a 0 hp)]
  | succ p ih =>
    intro hp
    unfold runLen
    rw [if_pos (chEq_diag a (p + 1) hp), ih (by omega)]

/-! ### find_longest_match lemmas -/

theorem mem_lexPairs (la lb p q : Nat) :
    (p, q) ∈ lexPairs la lb ↔ p < la ∧ q < lb := by
  unfold lexPairs
  rw [List.mem_flatten]
  constructor
  · rintro ⟨l, hl, hmem⟩
    rcases List.mem_map.1 hl with ⟨i, hi, rfl⟩
    rcases List.mem_map.1 hmem with ⟨j, hj, hpq⟩
    rcases Prod.mk.injEq .. ▸ hpq with ⟨rfl, rfl⟩
    exact ⟨List.mem_range.1 hi, List.mem_range.1 hj⟩
  · rintro ⟨hp, hq⟩
    refine ⟨(List.range lb).map (fun j => (p, j)), ?_, ?_⟩
    · exact List.mem_map.2 ⟨p, List.mem_range.2 hp, rfl⟩
    · exact List.mem_map.2 ⟨q, List.mem_range.2 hq, rfl⟩

theorem foldl_flmStep_inv (a b : List Char) (P : Nat × Nat × Nat → Prop)
    (l : List (Nat × Nat)) :
    ∀ best, P best →
      (∀ best' p, p ∈ l → P best' → P (flmStep a b best' p)) →
      P (l.foldl (flmStep a b) best) := by
  induction l with
  | nil =>
    intro best h _
    simpa using h
  | cons x t ih =>
    intro best hb hstep
    exact ih (flmStep a b best x) (hstep best x (List.mem_cons_self x t) hb)
      (fun b' p hp => hstep b' p (List.mem_cons_of_mem x hp))

theorem flmStep_k_le (a b : List Char) (best : Nat × Nat × Nat) (p : Nat × Nat) :
    best.2.2 ≤ (flmStep a b best p).2.2 := by
  unfold flmStep
  split
  · next h =>
    dsimp only
    omega
  · exact le_rfl

theorem flmStep_run_le (a b : List Char) (best : Nat × Nat × Nat) (p : Nat × Nat) :
    runLen a b p.1 p.2 ≤ (flmStep a b best p).2.2 := by
  unfold flmStep
  split
  · next h => exact le_rfl
  · next h => omega

theorem foldl_flmStep_init_le (a b : List Char) (l : List (Nat × Nat)) :
    ∀ best, best.2.2 ≤ (l.foldl (flmStep a b) best).2.2 := by
  induction l with
  | nil =>
    intro best
    simp
  | cons x t ih =>
    intro best
    exact le_trans (flmStep_k_le a b best x) (ih (flmStep a b best x))

theorem foldl_flmStep_mem_le (a b : List Char) (l : List (Nat × Nat)) :
    ∀ best p, p ∈ l →
      runLen a b p.1 p.2 ≤ (l.foldl (flmStep a b) best).2.2 := by
  induction l with
  | nil =>
    intro best p hp
    cases hp
  | cons x t ih =>
    intro best p hp
    rcases List.mem_cons.1 hp with rfl | hp'
    · exact le_trans (flmStep_run_le a b best p)
        (foldl_flmStep_init_le a b t (flmStep a b best p))
    · exact ih (flmStep a b best x) p hp'

theorem flm_spec (a b : List Char) :
    findLongestMatch a b = (0, 0, 0) ∨
      ((findLongestMatch a b).2.2 ≠ 0 ∧
        (findLongestMatch a b).1 + (findLongestMatch a b).2.2 ≤ a.length ∧
        (findLongestMatch a b).2.1 + (findLongestMatch a b).2.2 ≤ b.length ∧
        ∀ t < (findLongestMatch a b).2.2,
          ∃ x, a.get? ((findLongestMatch a b).1 + t) = some x ∧
            b.get? ((findLongestMatch a b).2.1 + t) = some x) := by
  unfold findLongestMatch
  refine foldl_flmStep_inv a b
    (fun best => best = (0, 0, 0) ∨
      (best.2.2 ≠ 0 ∧ best.1 + best.2.2 ≤ a.length ∧
        best.2.1 + best.2.2 ≤ b.length ∧
        ∀ t < best.2.2,
          ∃ x, a.get? (best.1 + t) = some x ∧ b.get? (best.2.1 + t) = some x))
    (lexPairs a.length b.length) (0, 0, 0) (Or.inl rfl) ?_
  intro best p hp hP
  unfold flmStep
  split
  · next hlt =>
    right
    dsimp only
    have hkpos : runLen a b p.1 p.2 ≠ 0 := by omega
    have hbound := runLen_pos_lt a b p.1 p.2 hkpos
    have hkle1 := runLen_le_left a b p.1 p.2
    have hkle2 := runLen_le_right a b p.1 p.2
    refine ⟨hkpos, by omega, by omega, ?_⟩
    intro t ht
    obtain ⟨x, hx1, hx2⟩ := runLen_block a b p.1 p.2 (runLen a b p.1 p.2 - 1 - t)
      (by omega)
    have e1 : p.1 - (runLen a b p.1 p.2 - 1 - t) =
        p.1 + 1 - runLen a b p.1 p.2 + t := by omega
    have e2 : p.2 - (runLen a b p.1 p.2 - 1 - t) =
        p.2 + 1 - runLen a b p.1 p.2 + t := by omega
    rw [e1] at hx1
    rw [e2] at hx2
    exact ⟨x, hx1, hx2⟩
  · exact hP

theorem flm_self (a : List Char) (h : a ≠ []) :
    findLongestMatch a a = (0, 0, a.length) := by
  have hlen : 0 < a.length := List.length_pos.2 h
  have hge : a.length ≤ (findLongestMatch a a).2.2 := by
    have hmem : (a.length - 1, a.length - 1) ∈ lexPairs a.length a.length :=
      (mem_lexPairs _ _ _ _).2 ⟨by omega, by omega⟩
    have hr := foldl_flmStep_mem_le a a (lexPairs a.length a.length) (0, 0, 0)
      (a.length - 1, a.length - 1) hmem
    rw [runLen_diag a (a.length - 1) (by omega)] at hr
    unfold findLongestMatch
    omega
  have hinv : (findLongestMatch a a).2.2 ≤ a.length ∧
      ((findLongestMatch a a).2.2 = a.length →
        findLongestMatch a a = (0, 0, a.length)) := by
    unfold findLongestMatch
    refine foldl_flmStep_inv a a
      (fun best => best.2.2 ≤ a.length ∧
        (best.2.2 = a.length → best = (0, 0, a.length)))
      (lexPairs a.length a.length) (0, 0, 0)
      ⟨by dsimp only; omega, fun h0 => False.elim (by dsimp only at h0; omega)⟩ ?_
    intro best p hp hP
    have hpmem := (mem_lexPairs a.length a.length p.1 p.2).1 (by
      cases p
      exact hp)
    unfold flmStep
    split
    · next hlt =>
      dsimp only
      have hkle1 := runLen_le_left a a p.1 p.2
      have hkle2 := runLen_le_right a a p.1 p.2
      refine ⟨by omega, ?_⟩
      intro hk
      have e1 : p.1 + 1 - runLen a a p.1 p.2 = 0 := by omega
      have e2 : p.2 + 1 - runLen a a p.1 p.2 = 0 := by omega
      rw [e1, e2, hk]
    · exact hP
  exact hinv.2 (le_antisymm hinv.1 hge)

/-! ### Matches-count lemmas -/

theorem smGo_nil (fuel : Nat) (b : List Char) : smGo fuel [] b = 0 := by
  cases fuel with
  | zero => rfl
  | succ fuel =>
    have hflm : findLongestMatch [] b = (0, 0, 0) := rfl
    simp [smGo, hflm]

theorem smGo_le (fuel : Nat) : ∀ a b : List Char, a.length ≤ fuel →
    smGo fuel a b ≤ a.length ∧ smGo fuel a b ≤ b.length := by
  induction fuel with
  | zero =>
    intro a b h
    simp [smGo]
  | succ fuel ih =>
    intro a b h
    rcases flm_spec a b with hz | ⟨hk, hb1, hb2, _⟩
    · simp [smGo, hz]
    · have h1 := ih (a.take (findLongestMatch a b).1)
        (b.take (findLongestMatch a b).2.1)
        (by rw [List.length_take]; omega)
      have h2 := ih (a.drop ((findLongestMatch a b).1 + (findLongestMatch a b).2.2))
        (b.drop ((findLongestMatch a b).2.1 + (findLongestMatch a b).2.2))
        (by rw [List.length_drop]; omega)
      rw [List.length_take, List.length_take] at h1
      rw [List.length_drop, List.length_drop] at h2
      unfold smGo
      rw [if_neg hk]
      constructor <;> omega

theorem smGo_self (fuel : Nat) : ∀ a : List Char, a.length ≤ fuel →
    smGo fuel a a = a.length := by
  induction fuel with
  | zero =>
    intro a h
    have h0 : a.length = 0 := by omega
    simp [smGo, h0]
  | succ fuel ih =>
    intro a h
    by_cases ha : a = []
    · subst ha
      simp [smGo_nil]
    · have hflm := flm_self a ha
      have hlen : 0 < a.length := List.length_pos.2 ha
      unfold smGo
      rw [hflm]
      dsimp only
      rw [if_neg (by omega)]
      rw [List.take_zero, smGo_nil, Nat.zero_add, List.drop_length, smGo_nil]
      omega

theorem smGo_full (fuel : Nat) : ∀ a b : List Char, a.length ≤ fuel →
    smGo fuel a b = a.length → smGo fuel a b = b.length → a = b := by
  induction fuel with
  | zero =>
    intro a b h h1 h2
    simp only [smGo] at h1 h2
    rw [List.eq_nil_of_length_eq_zero h1.symm,
      List.eq_nil_of_length_eq_zero h2.symm]
  | succ fuel ih =>
    intro a b h h1 h2
    rcases flm_spec a b with hz | ⟨hk, hbd1, hbd2, hblock⟩
    · rw [smGo] at h1 h2
      rw [hz] at h1 h2
      simp only [if_pos rfl] at h1 h2
      rw [List.eq_nil_of_length_eq_zero h1.symm,
        List.eq_nil_of_length_eq_zero h2.symm]
    · rw [smGo, if_neg hk] at h1 h2
      have hfuel1 : (a.take (findLongestMatch a b).1).length ≤ fuel := by
        rw [List.length_take]; omega
      have hfuel2 :
          (a.drop ((findLongestMatch a b).1 + (findLongestMatch a b).2.2)).length ≤
            fuel := by
        rw [List.length_drop]; omega
      have hm1 := smGo_le fuel (a.take (findLongestMatch a b).1)
        (b.take (findLongestMatch a b).2.1) hfuel1
      have hm2 := smGo_le fuel
        (a.drop ((findLongestMatch a b).1 + (findLongestMatch a b).2.2))
        (b.drop ((findLongestMatch a b).2.1 + (findLongestMatch a b).2.2)) hfuel2
      rw [List.length_take, List.length_take] at hm1
      rw [List.length_drop, List.length_drop] at hm2
      have hij : (findLongestMatch a b).1 = (findLongestMatch a b).2.1 := by omega
      have hlen : a.length = b.length := by omega
      have htk1 : (a.take (findLongestMatch a b).1).length =
          smGo fuel (a.take (findLongestMatch a b).1)
            (b.take (findLongestMatch a b).2.1) := by
        rw [List.length_take]; omega
      have htk2 : (b.take (findLongestMatch a b).2.1).length =
          smGo fuel (a.take (findLongestMatch a b).1)
            (b.take (findLongestMatch a b).2.1) := by
        rw [List.length_take]; omega
      have hdr1 :
          (a.drop ((findLongestMatch a b).1 + (findLongestMatch a b).2.2)).length =
          smGo fuel (a.drop ((findLongestMatch a b).1 + (findLongestMatch a b).2.2))
            (b.drop ((findLongestMatch a b).2.1 + (findLongestMatch a b).2.2)) := by
        rw [List.length_drop]; omega
      have hdr2 :
          (b.drop ((findLongestMatch a b).2.1 + (findLongestMatch a b).2.2)).length =
          smGo fuel (a.drop ((findLongestMatch a b).1 + (findLongestMatch a b).2.2))
            (b.drop ((findLongestMatch a b).2.1 + (findLongestMatch a b).2.2)) := by
        rw [List.length_drop]; omega
      have e1 : a.take (findLongestMatch a b).1 = b.take (findLongestMatch a b).2.1 :=
        ih _ _ hfuel1 htk1.symm htk2.symm
      have e2 : a.drop ((findLongestMatch a b).1 + (findLongestMatch a b).2.2) =
          b.drop ((findLongestMatch a b).2.1 + (findLongestMatch a b).2.2) :=
        ih _ _ hfuel2 hdr1.symm hdr2.symm
      apply List.ext_get?
      intro n
      by_cases hn1 : n < (findLongestMatch a b).1
      · have hc := congrArg (fun l => List.get? l n) e1
        dsimp only at hc
        rw [List.get?_take hn1, List.get?_take (hij ▸ hn1)] at hc
        exact hc
      · by_cases hn2 : n < (findLongestMatch a b).1 + (findLongestMatch a b).2.2
        · obtain ⟨x, hx1, hx2⟩ := hblock (n - (findLongestMatch a b).1) (by omega)
          rw [show (findLongestMatch a b).1 + (n - (findLongestMatch a b).1) = n by
            omega] at hx1
          rw [show (findLongestMatch a b).2.1 + (n - (findLongestMatch a b).1) = n by
            omega] at hx2
          rw [hx1, hx2]
        · have hc := congrArg
            (fun l => List.get? l (n - ((findLongestMatch a b).1 + (findLongestMatch a b).2.2))) e2
          dsimp only at hc
          rw [List.get?_drop, List.get?_drop] at hc
          rw [show (findLongestMatch a b).1 + (findLongestMatch a b).2.2 +
              (n - ((findLongestMatch a b).1 + (findLongestMatch a b).2.2)) = n by
            omega] at hc
          rw [show (findLongestMatch a b).2.1 + (findLongestMatch a b).2.2 +
              (n - ((findLongestMatch a b).1 + (findLongestMatch a b).2.2)) = n by
            omega] at hc
          exact hc

/-! ### Ratio lemmas -/

theorem smMatches_le (a b : List Char) :
    smMatches a b ≤ a.length ∧ smMatches a b ≤ b.length :=
  smGo_le a.length a b le_rfl

theorem smMatches_self (a : List Char) : smMatches a a = a.length :=
  smGo_self a.length a le_rfl

theorem smMatches_full (a b : List Char) (h1 : smMatches a b = a.length)
    (h2 : smMatches a b = b.length) : a = b :=
  smGo_full a.length a b le_rfl h1 h2

theorem smRatio_nonneg (a b : List Char) : 0 ≤ smRatio a b := by
  unfold smRatio
  split
  · norm_num
  · positivity

theorem smRatio_le_one (a b : List Char) : smRatio a b ≤ 1 := by
  unfold smRatio
  split
  · exact le_rfl
  · next h =>
    have hM := smMatches_le a b
    have hpos : (0 : ℚ) < (a.length : ℚ) + (b.length : ℚ) := by
      have h' : 0 < a.length + b.length := by omega
      exact_mod_cast h'
    rw [div_le_one hpos]
    have h2 : 2 * smMatches a b ≤ a.length + b.length := by omega
    exact_mod_cast h2

theorem smRatio_eq_one_iff (a b : List Char) : smRatio a b = 1 ↔ a = b := by
  constructor
  · intro h
    unfold smRatio at h
    split at h
    · next h0 =>
      have ha : a.length = 0 := by omega
      have hb : b.length = 0 := by omega
      rw [List.eq_nil_of_length_eq_zero ha, List.eq_nil_of_length_eq_zero hb]
    · next h0 =>
      have hpos : ((a.length : ℚ) + (b.length : ℚ)) ≠ 0 := by
        have h1 : 0 < a.length + b.length := by omega
        have h2 : (0 : ℚ) < (a.length : ℚ) + (b.length : ℚ) := by exact_mod_cast h1
        exact ne_of_gt h2
      rw [div_eq_one_iff_eq hpos] at h
      have hnat : 2 * smMatches a b = a.length + b.length := by exact_mod_cast h
      have hM := smMatches_le a b
      exact smMatches_full a b (by omega) (by omega)
  · rintro rfl
    unfold smRatio
    split
    · rfl
    · next h0 =>
      rw [smMatches_self]
      have hne : ((a.length : ℚ)) ≠ 0 := by
        have h1 : a.length ≠ 0 := by omega
        exact_mod_cast h1
      field_simp
      ring

/-! ### Case-folding lemmas -/

theorem toNat_ofNat_valid (n : Nat) (h : n < 55296) : (Char.ofNat n).toNat = n := by
  unfold Char.ofNat
  rw [dif_pos (Or.inl h)]
  rfl

theorem lowerChar_lowerChar (c : Char) : lowerChar (lowerChar c) = lowerChar c := by
  by_cases h : 65 ≤ c.toNat ∧ c.toNat ≤ 90
  · have h1 : lowerChar c = Char.ofNat (c.toNat + 32) := by
      unfold lowerChar
      rw [if_pos h]
    rw [h1]
    unfold lowerChar
    rw [toNat_ofNat_valid (c.toNat + 32) (by omega)]
    rw [if_neg (by omega)]
  · have h1 : lowerChar c = c := by
      unfold lowerChar
      rw [if_neg h]
    rw [h1]
    exact h1

theorem lowerChar_upperChar (c : Char) : lowerChar (upperChar c) = lowerChar c := by
  by_cases h : 97 ≤ c.toNat ∧ c.toNat ≤ 122
  · have h1 : upperChar c = Char.ofNat (c.toNat - 32) := by
      unfold upperChar
      rw [if_pos h]
    rw [h1]
    unfold lowerChar
    rw [toNat_ofNat_valid (c.toNat - 32) (by omega)]
    rw [if_pos (by omega), if_neg (by omega)]
    rw [show c.toNat - 32 + 32 = c.toNat by omega, Char.ofNat_toNat]
  · have h1 : upperChar c = c := by
      unfold upperChar
      rw [if_neg h]
    rw [h1]

theorem map_lower_lower (l : List Char) :
    (l.map lowerChar).map lowerChar = l.map lowerChar := by
  rw [List.map_map, show lowerChar ∘ lowerChar = lowerChar from funext lowerChar_lowerChar]

theorem map_lower_upper (l : List Char) :
    (l.map upperChar).map lowerChar = l.map lowerChar := by
  rw [List.map_map, show lowerChar ∘ upperChar = lowerChar from funext lowerChar_upperChar]

/-! ### Similarity laws -/

theorem similarity_nonneg (a b : String) : 0 ≤ similarity a b :=
  smRatio_nonneg _ _

theorem similarity_le_one (a b : String) : similarity a b ≤ 1 :=
  smRatio_le_one _ _

theorem similarity_strUpper_left (a b : String) :
    similarity (strUpper a) b = similarity a b := by
  show smRatio ((a.data.map upperChar).map lowerChar) (b.data.map lowerChar) = _
  rw [map_lower_upper]
  rfl

theorem similarity_strUpper_right (a b : String) :
    similarity a (strUpper b) = similarity a b := by
  show smRatio (a.data.map lowerChar) ((b.data.map upperChar).map lowerChar) = _
  rw [map_lower_upper]
  rfl

theorem similarity_strLower_left (a b : String) :
    similarity (strLower a) b = similarity a b := by
  show smRatio ((a.data.map lowerChar).map lowerChar) (b.data.map lowerChar) = _
  rw [map_lower_lower]
  rfl

theorem similarity_strLower_right (a b : String) :
    similarity a (strLower b) = similarity a b := by
  show smRatio (a.data.map lowerChar) ((b.data.map lowerChar).map lowerChar) = _
  rw [map_lower_lower]
  rfl

theorem one_le_similarity_iff (a b : String) :
    1 ≤ similarity a b ↔ strLower a = strLower b := by
  have h1 : 1 ≤ similarity a b ↔ similarity a b = 1 :=
    ⟨fun h => le_antisymm (similarity_le_one a b) h, fun h => h ▸ le_rfl⟩
  rw [h1]
  unfold similarity
  rw [smRatio_eq_one_iff]
  constructor
  · intro h
    exact String.ext h
  · intro h
    exact congrArg String.data h

/-- C7 (amended): the similarity function takes values in the unit
interval, is case-insensitive in each argument, and gives two empty
strings the maximal value 1.  (It is not symmetric: see the
counterexample.) -/
theorem similarity_laws (a b : String) :
    0 ≤ similarity a b ∧ similarity a b ≤ 1
    ∧ similarity (strUpper a) b = similarity a b
    ∧ similarity a (strUpper b) = similarity a b
    ∧ similarity (strLower a) b = similarity a b
    ∧ similarity a (strLower b) = similarity a b
    ∧ similarity "" "" = 1 :=
  ⟨similarity_nonneg a b, similarity_le_one a b,
    similarity_strUpper_left a b, similarity_strUpper_right a b,
    similarity_strLower_left a b, similarity_strLower_right a b, rfl⟩

/-- Evaluation helper: the ratio at computed matches and lengths. -/
theorem smRatio_eval (a b : List Char) (m la lb : Nat)
    (hm : smMatches a b = m) (hla : a.length = la) (hlb : b.length = lb) :
    smRatio a b = if la + lb = 0 then (1 : ℚ) else (2 * m : ℚ) / (la + lb) := by
  unfold smRatio
  rw [hm, hla, hlb]

/-- C7 counterexample: the similarity function is not symmetric, because
difflib's longest-match tie-breaking depends on the argument order; at
tide and diet the two orders give 1/4 and 1/2. -/
theorem similarity_not_symmetric :
    similarity "tide" "diet" ≠ similarity "diet" "tide" := by
  have e1 : similarity "tide" "diet" = 1 / 4 := by
    unfold similarity
    rw [smRatio_eval _ _ 1 4 4 (by decide) (by decide) (by decide)]
    norm_num
  have e2 : similarity "diet" "tide" = 1 / 2 := by
    unfold similarity
    rw [smRatio_eval _ _ 2 4 4 (by decide) (by decide) (by decide)]
    norm_num
  rw [e1, e2]
  norm_num

/-! ### Fuzzy name filter -/

theorem round2_one : round2 1 = 1 := by
  have h : roundHalfEven (1 * 100) = 100 := by
    unfold roundHalfEven
    norm_num
  unfold round2
  rw [h]
  norm_num

theorem truncate50_short (l : List SearchItem) (h : l.length ≤ 50) :
    truncate50 l = l := by
  unfold truncate50
  rw [if_neg (by omega)]

theorem sortDesc_const {α : Type} (key : α → ℚ) (v : ℚ) :
    ∀ l : List α, (∀ x ∈ l, key x = v) → sortDesc key l = l := by
  intro l
  induction l with
  | nil => intro _; rfl
  | cons x t ih =>
    intro h
    show insertDesc key x (sortDesc key t) = x :: t
    rw [ih (fun y hy => h y (List.mem_cons_of_mem x hy))]
    cases t with
    | nil => rfl
    | cons y ys =>
      unfold insertDesc
      rw [h y (List.mem_cons_of_mem x (List.mem_cons_self y ys)),
        h x (List.mem_cons_self x (y :: ys)), if_pos le_rfl]

theorem truthyS_of_ne (n : String) (hn : n ≠ "") : truthyS (some n) = true := by
  have h : n.isEmpty = false := by
    cases hne : n.isEmpty
    · rfl
    · exact absurd ((String.isEmpty_iff n).1 hne) hn
  show (!n.isEmpty) = true
  rw [h]
  rfl

theorem name_filter_scenarios_fuzzy (n : String) (ms : ℚ) (l : List ScenarioRec)
    (hn : n ≠ "") :
    name_filter_scenarios (some n) true ms l = fuzzy_name_matches n ms l := by
  unfold name_filter_scenarios
  rw [if_pos (truthyS_of_ne n hn), if_pos rfl]
  rfl

/-- The fuzzy name filter keeps exactly the records whose case-insensitive
similarity with the query reaches the threshold, attaching the rounded
score (the pre-lowering of the title in the source is absorbed by the
similarity function's own case folding). -/
theorem fuzzy_name_matches_eq (n : String) (ms : ℚ) (l : List ScenarioRec) :
    fuzzy_name_matches n ms l =
      (l.filter (fun s => decide (ms ≤ similarity n (s.title?.getD "")))).map
        (fun s =>
          { s with similarity? := some (round2 (similarity n (s.title?.getD ""))) }) := by
  induction l with
  | nil => rfl
  | cons s t ih =>
    have hsim : similarity n (strLower (s.title?.getD "")) =
        similarity n (s.title?.getD "") := similarity_strLower_right _ _
    unfold fuzzy_name_matches at ih ⊢
    by_cases hp : ms ≤ similarity n (s.title?.getD "")
    · rw [List.filterMap_cons_some (by rw [hsim, if_pos hp])]
      rw [List.filter_cons_of_pos (by simpa using hp)]
      rw [List.map_cons, ih]
    · rw [List.filterMap_cons_none (by rw [hsim, if_neg hp])]
      rw [List.filter_cons_of_neg (by simpa using hp)]
      exact ih

/-- The scenario pipeline at min_similarity 1: exactly the records whose
title equals the query case-insensitively, each carrying similarity 1. -/
theorem search_core_min_sim_one (n : String) (c : List ScenarioRec)
    (sf : Unit → Except Unit (List ScenarioRec))
    (cf : Option String → List CardRec) (hn : n ≠ "") (hc : c ≠ []) :
    (search_core "scenario" (some n) none none none true 1 none c sf cf).1 =
      (c.filter (fun s => decide (strLower (s.title?.getD "") = strLower n))).map
        (fun s => SearchItem.scenario { s with similarity? := some 1 }) := by
  unfold search_core
  rw [if_pos (by decide), get_cached_of_ne_nil c sf hc]
  dsimp only
  rw [name_filter_scenarios_fuzzy n 1 c hn]
  rw [show apply_min_players none (fuzzy_name_matches n 1 c) =
    fuzzy_name_matches n 1 c from rfl]
  rw [show ∀ l : List ScenarioRec, apply_max_players none l = l from fun _ => rfl]
  rw [show ∀ l : List ScenarioRec, apply_difficulty none l = l from fun _ => rfl]
  rw [fuzzy_name_matches_eq]
  have hfilter : c.filter (fun s => decide (1 ≤ similarity n (s.title?.getD ""))) =
      c.filter (fun s => decide (strLower (s.title?.getD "") = strLower n)) := by
    refine List.filter_congr ?_
    intro s _
    refine decide_eq_decide.2 ?_
    rw [one_le_similarity_iff]
    exact eq_comm
  rw [hfilter]
  have hmap : ∀ s ∈ c.filter (fun s => decide (strLower (s.title?.getD "") = strLower n)),
      ({ s with similarity? := some (round2 (similarity n (s.title?.getD ""))) } : ScenarioRec) =
        { s with similarity? := some 1 } := by
    intro s hs
    have hpred := (List.mem_filter.1 hs).2
    have heq : strLower (s.title?.getD "") = strLower n := of_decide_eq_true hpred
    have hsim : similarity n (s.title?.getD "") = 1 :=
      le_antisymm (similarity_le_one _ _) ((one_le_similarity_iff _ _).2 heq.symm)
    rw [hsim, round2_one]
  rw [List.map_congr_left hmap]
  have hsort : apply_scenario_sort true (some n)
      ((c.filter (fun s => decide (strLower (s.title?.getD "") = strLower n))).map
        (fun s => { s with similarity? := some 1 })) =
      (c.filter (fun s => decide (strLower (s.title?.getD "") = strLower n))).map
        (fun s => { s with similarity? := some 1 }) := by
    unfold apply_scenario_sort
    rw [if_pos (by rw [truthyS_of_ne n hn]; rfl)]
    refine sortDesc_const _ 1 _ ?_
    intro x hx
    rcases List.mem_map.1 hx with ⟨s, _, rfl⟩
    rfl
  rw [hsort, List.map_map]
  rfl

/-- C4: the fuzzy scenario name filter keeps exactly the records whose
case-insensitive similarity ratio with the query reaches min_similarity,
attaching the 2-decimal-rounded score to each kept record; and with
min_similarity 1 the search returns exactly the records whose title equals
the query case-insensitively (each carrying score 1), provided there are
at most 50 of them so the final truncation is inert. -/
theorem fuzzy_min_similarity (n : String) (ms : ℚ) (l c : List ScenarioRec)
    (sf : Unit → Except Unit (List ScenarioRec))
    (cf : Option String → List CardRec)
    (hn : n ≠ "") (hc : c ≠ [])
    (h50 : (c.filter (fun s => decide (strLower (s.title?.getD "") = strLower n))).length ≤ 50) :
    (fuzzy_name_matches n ms l =
      (l.filter (fun s => decide (ms ≤ similarity n (s.title?.getD "")))).map
        (fun s =>
          { s with similarity? := some (round2 (similarity n (s.title?.getD ""))) }))
    ∧ (search_arkham "scenario" (some n) none none none true 1 none c sf cf).1 =
      (c.filter (fun s => decide (strLower (s.title?.getD "") = strLower n))).map
        (fun s => SearchItem.scenario { s with similarity? := some 1 }) := by
  constructor
  · exact fuzzy_name_matches_eq n ms l
  · unfold search_arkham
    rw [search_core_min_sim_one n c sf cf hn hc]
    apply truncate50_short
    rw [List.length_map]
    exact h50

/-- C4 witness: at the query THE KING IN YELLOW 1-4 PLAYERS, both the
fuzzy filter law and the min_similarity-1 search law hold on concrete
records (the sample record's title matches case-insensitively, the other
record's does not). -/
theorem fuzzy_min_similarity_witness :
    (fuzzy_name_matches "THE KING IN YELLOW 1-4 PLAYERS" 1 [Arkham.sampleRec] =
      ([Arkham.sampleRec].filter
          (fun s => decide ((1 : ℚ) ≤
            similarity "THE KING IN YELLOW 1-4 PLAYERS" (s.title?.getD "")))).map
        (fun s =>
          { s with
            similarity? := some (round2 (similarity "THE KING IN YELLOW 1-4 PLAYERS" (s.title?.getD ""))) }))
    ∧ (search_arkham "scenario" (some "THE KING IN YELLOW 1-4 PLAYERS") none none
        none true 1 none [Arkham.sampleRec, Arkham.otherRec]
        (fun _ => .error ()) (fun _ => [])).1 =
      ([Arkham.sampleRec, Arkham.otherRec].filter
          (fun s => decide (strLower (s.title?.getD "") =
            strLower "THE KING IN YELLOW 1-4 PLAYERS"))).map
        (fun s => SearchItem.scenario { s with similarity? := some 1 }) :=
  fuzzy_min_similarity "THE KING IN YELLOW 1-4 PLAYERS" 1 [Arkham.sampleRec]
    [Arkham.sampleRec, Arkham.otherRec] (fun _ => .error ()) (fun _ => [])
    (by decide) (by decide) (by decide)

/-- C9 witness, at the unsupported kind widget. -/
theorem unknown_kind_witness :
    (search_arkham "widget" none none none none false (6 / 10) none []
        (fun _ => .error ()) (fun _ => [])).1 =
      [SearchItem.err
        ⟨"Unknown search type: 'widget'. Supported types: 'scenario', 'card', 'investigator'.",
          none, none⟩]
    ∧ strIn "widget".data
        ("Unknown search type: '" ++ "widget" ++
            "'. Supported types: 'scenario', 'card', 'investigator'.").data =
      true := by
  have h := unknown_kind "widget" none none none none false (6 / 10) none []
    (fun _ => .error ()) (fun _ => []) (by decide) (by decide) (by decide)
  exact ⟨by rw [h.1]; rfl, h.2⟩

end Arkham
